import Mathlib

/-!
# Verification of the NetKet `AbstractVariationalDriver` core

Shallow embedding of `src/netket/abstract_variational_driver.py`.

The driver object is modelled by `DriverState`; the Python methods
`update_parameters`, `iter`, `advance`, `reset`, `run`, `estimate` are
modelled by Lean functions of the same name acting on that state.  The
subclass-supplied hooks (`_forward_and_backward`, the optimizer's `update`,
`_estimate_stats`) are passed as explicit function parameters, since in
Python they live on `self`; fallible Python code is modelled with
`Except PyErr` / an `Option PyErr` error slot.  Generator consumption is
modelled by functions returning the full list of yielded values together
with the trace of externally visible events (hook invocations, yields,
parameter updates, logger calls).
-/

namespace Netket

/-- Python exceptions that the modelled code can raise. -/
inductive PyErr where
  | notImplementedError
  | valueError (msg : String)
  | typeError (msg : String)
deriving DecidableEq

/-- The machine/model collaborator: exposes a mutable `parameters` slot
(spec section 6); `P` is the opaque parameter pytree. -/
structure Machine (P : Type) where
  parameters : P
deriving DecidableEq

/-- The mutable fields of `AbstractVariationalDriver` set by `__init__`
(lines 35-44 of the source): `_mynode`, `_mpi_nodes`, `_obs`, `_loss_stats`,
`_loss_name`, `_step_count`, `_machine`.  `S` is the concrete subclass's
internal (sampler) state, `L` the loss-statistics type, `O` the observable
type.  The optimizer is threaded as a function parameter `G → P → P`
instead of being stored (Python stores it on `self`). -/
structure DriverState (P S L O : Type) where
  mynode : Nat
  mpi_nodes : Nat
  obs : List (String × O)
  loss_stats : Option L
  loss_name : String
  step_count : Nat
  machine : Machine P
  internal : S
deriving DecidableEq

/-- `AbstractVariationalDriver.__init__(machine, optimizer, minimized_quantity_name)`
(source lines 35-44).  It performs only attribute assignments, so it is a
total function: construction never fails.  `internal` is the concrete
subclass's own state, opaque to the base class. -/
def driver_init {P S L O : Type} (rank n_nodes : Nat) (machine : Machine P)
    (minimized_quantity_name : String) (internal : S) : DriverState P S L O :=
  { mynode := rank
    mpi_nodes := n_nodes
    obs := []
    loss_stats := none
    loss_name := minimized_quantity_name
    step_count := 0
    machine := machine
    internal := internal }

/-- `update_parameters(dp)` (source lines 278-286):
`self._machine.parameters = self._optimizer.update(dp, self._machine.parameters)`
followed by `self._step_count += 1`. -/
def update_parameters {P S L O G : Type} (optimizer : G → P → P) (dp : G)
    (s : DriverState P S L O) : DriverState P S L O :=
  { s with
    machine := { parameters := optimizer dp s.machine.parameters }
    step_count := s.step_count + 1 }

/-- The base-class part of `reset()` (source lines 85-93): sets
`self._step_count = 0`.  Concrete drivers additionally reset their own
sampler state, which is outside the base class. -/
def reset {P S L O : Type} (s : DriverState P S L O) : DriverState P S L O :=
  { s with step_count := 0 }

/-- Type of the `_forward_and_backward` hook: reads the machine parameters
and the subclass internal state, returns the update `dp`, the new internal
state and (optionally) a freshly assigned `self._loss_stats`; it may raise. -/
def FabFn (P G S L : Type) : Type :=
  P → S → Except PyErr (G × S × Option L)

/-- The default `_forward(self)` (source lines 58-64): raises
`NotImplementedError`. -/
def default_forward {P S : Type} : P → S → Except PyErr S :=
  fun _ _ => .error .notImplementedError

/-- The default `_backward(self)` (source lines 66-72): raises
`NotImplementedError`. -/
def default_backward {P G S L : Type} : P → S → Except PyErr (G × S × Option L) :=
  fun _ _ => .error .notImplementedError

/-- The default `_forward_and_backward(self)` (source lines 46-56):
`self._forward()` then `dp = self._backward()`; the first raised exception
propagates. -/
def forward_and_backward_of {P G S L : Type} (fw : P → S → Except PyErr S)
    (bw : P → S → Except PyErr (G × S × Option L)) : FabFn P G S L :=
  fun p st =>
    match fw p st with
    | .error e => .error e
    | .ok st₂ => bw p st₂

/-- `_forward_and_backward` of a concrete subclass that overrides neither
the joint method nor the two halves: the inherited default composition of
the defaults, which raises `NotImplementedError` at its first invocation. -/
def defaultFab {P G S L : Type} : FabFn P G S L :=
  forward_and_backward_of default_forward default_backward

/-- Lift an infallible hook into `FabFn` (a concrete driver with a valid
forward/backward strategy never raises). -/
def liftFab {P G S L : Type} (f : P → S → G × S × Option L) : FabFn P G S L :=
  fun p st => .ok (f p st)

/-- Externally visible events produced while consuming the `iter` generator:
an invocation of `_forward_and_backward`, a `yield` of a step-count value,
and a completed `update_parameters` call. -/
inductive IterEvent where
  | fabCall
  | yielded (v : Nat)
  | paramsUpdated
deriving DecidableEq

/-- `true` exactly on `IterEvent.fabCall`; counting these counts the inner
advances performed. -/
def isFabCall : IterEvent → Bool
  | .fabCall => true
  | _ => false

/-- Result of (fully attempting to) consume the generator: the yielded
values in order, the event trace, the final driver state and the exception
that escaped, if any.  On an exception the mutations already performed
persist on the driver object, as in Python. -/
structure IterOutcome (P S L O : Type) where
  yields : List Nat
  events : List IterEvent
  state : DriverState P S L O
  err : Option PyErr
deriving DecidableEq

/-- Python's `range(cur, stop, step)` as a list, for non-negative arguments
and positive `step` (the `step = 0` `ValueError` is raised by the caller
`consume` below, matching where Python raises it). -/
def pyRange (cur stop step : Nat) : List Nat :=
  if h : 0 < step ∧ cur < stop then cur :: pyRange (cur + step) stop step
  else []
termination_by stop - cur
decreasing_by omega

/-- The inner loop of `iter` (source lines 147-153), over the remaining
values of `i` from `range(0, step)`:
`dp = self._forward_and_backward()`; `if i == 0: yield self.step_count`;
`self._step_count += 1`; `self.update_parameters(dp)`. -/
def innerLoop {P S L O G : Type} (fab : FabFn P G S L) (optimizer : G → P → P) :
    List Nat → DriverState P S L O → IterOutcome P S L O
  | [], s => ⟨[], [], s, none⟩
  | i :: rest, s =>
    match fab s.machine.parameters s.internal with
    | .error e => ⟨[], [.fabCall], s, some e⟩
    | .ok res =>
      let dp := res.1
      let s₁ : DriverState P S L O :=
        { s with
          internal := res.2.1
          loss_stats := match res.2.2 with
            | some l => some l
            | none => s.loss_stats }
      let yieldsHere : List Nat := if i = 0 then [s₁.step_count] else []
      let yieldEvents : List IterEvent :=
        if i = 0 then [IterEvent.yielded s₁.step_count] else []
      let s₂ : DriverState P S L O := { s₁ with step_count := s₁.step_count + 1 }
      let s₃ := update_parameters optimizer dp s₂
      let r := innerLoop fab optimizer rest s₃
      ⟨yieldsHere ++ r.yields,
       .fabCall :: (yieldEvents ++ IterEvent.paramsUpdated :: r.events),
       r.state, r.err⟩

/-- The outer loop of `iter` (source line 146), over the remaining values of
`range(0, n_steps, step)` (the loop variable is unused); an exception
escaping a batch aborts the whole generator. -/
def outerLoop {P S L O G : Type} (fab : FabFn P G S L) (optimizer : G → P → P)
    (step : Nat) : List Nat → DriverState P S L O → IterOutcome P S L O
  | [], s => ⟨[], [], s, none⟩
  | _ :: batches, s =>
    let r := innerLoop fab optimizer (List.range step) s
    match r.err with
    | some _ => r
    | none =>
      let r₂ := outerLoop fab optimizer step batches r.state
      ⟨r.yields ++ r₂.yields, r.events ++ r₂.events, r₂.state, r₂.err⟩

/-- The generator object returned by `iter(n_steps, step)` (source lines
133-153).  Creating it executes none of the body (Python generators are
lazy), so `iter` is a total function. -/
structure IterGen (P S L O : Type) where
  n_steps : Nat
  step : Nat
  state : DriverState P S L O
deriving DecidableEq

/-- `iter(n_steps, step)`: returns the (lazy) generator. -/
def iter {P S L O : Type} (n_steps step : Nat) (s : DriverState P S L O) :
    IterGen P S L O :=
  ⟨n_steps, step, s⟩

/-- Fully consuming the generator.  The first resumption evaluates
`range(0, n_steps, step)`, which raises `ValueError` when `step == 0`,
before any hook is invoked. -/
def consume {P S L O G : Type} (fab : FabFn P G S L) (optimizer : G → P → P)
    (g : IterGen P S L O) : IterOutcome P S L O :=
  if g.step = 0 then
    ⟨[], [], g.state, some (.valueError "range arg 3 must not be zero")⟩
  else
    outerLoop fab optimizer g.step (pyRange 0 g.n_steps g.step) g.state

/-- `advance(steps)` (source lines 155-162): `for _ in self.iter(steps): pass`,
i.e. fully drain `iter(steps, 1)` discarding the yielded values. -/
def advance {P S L O G : Type} (fab : FabFn P G S L) (optimizer : G → P → P)
    (steps : Nat) (s : DriverState P S L O) : IterOutcome P S L O :=
  consume fab optimizer (iter steps 1 s)

/-- The number of batches `range(0, n_steps, step)` produces for
`0 < step`: the ceiling of `n_steps / step`. -/
def numBatches (n step : Nat) : Nat :=
  (n + step - 1) / step

/-- Event trace of `k` inner advances that do not yield: each advance is one
`_forward_and_backward` call followed by one parameter update. -/
def advancesTrace : Nat → List IterEvent
  | 0 => []
  | k + 1 => .fabCall :: .paramsUpdated :: advancesTrace k

/-- Event trace of one batch of `iter` starting at step count `c`: the first
advance's `_forward_and_backward` call, then the yield of `c`, then the first
parameter update, then the remaining `step - 1` advances. -/
def batchTrace (c step : Nat) : List IterEvent :=
  .fabCall :: .yielded c :: .paramsUpdated :: advancesTrace (step - 1)

/-- Event trace of `b` consecutive batches starting at step count `c`: each
batch raises the step count by `2 * step` (two increments per advance). -/
def fullTrace (c step : Nat) : Nat → List IterEvent
  | 0 => []
  | b + 1 => batchTrace c step ++ fullTrace (c + 2 * step) step b

/-- Expected yielded values of `b` consecutive batches starting at step
count `c`. -/
def expectedYields (c step : Nat) : Nat → List Nat
  | 0 => []
  | b + 1 => c :: expectedYields (c + 2 * step) step b

theorem pyRange_pos (cur stop step : Nat) (h1 : 0 < step) (h2 : cur < stop) :
    pyRange cur stop step = cur :: pyRange (cur + step) stop step := by
  conv_lhs => rw [pyRange]
  exact dif_pos ⟨h1, h2⟩

theorem pyRange_nil (cur stop step : Nat) (h : ¬(0 < step ∧ cur < stop)) :
    pyRange cur stop step = [] := by
  conv_lhs => rw [pyRange]
  exact dif_neg h

theorem pyRange_length (cur stop step : Nat) (h : 0 < step) :
    (pyRange cur stop step).length = (stop - cur + step - 1) / step := by
  by_cases hc : cur < stop
  · rw [pyRange_pos cur stop step h hc, List.length_cons,
      pyRange_length (cur + step) stop step h]
    have hsub : stop - (cur + step) = stop - cur - step := by omega
    rw [hsub]
    have hle : step ≤ stop - cur + step - 1 := by omega
    rw [Nat.div_eq_sub_div h hle]
    by_cases hds : step ≤ stop - cur
    · have e1 : stop - cur - step + step - 1 = stop - cur - 1 := by omega
      have e2 : stop - cur + step - 1 - step = stop - cur - 1 := by omega
      rw [e1, e2]
    · have e1 : stop - cur - step + step - 1 = step - 1 := by omega
      have e2 : stop - cur + step - 1 - step = stop - cur - 1 := by omega
      rw [e1, e2, Nat.div_eq_of_lt (by omega), Nat.div_eq_of_lt (by omega)]
  · rw [pyRange_nil cur stop step (by omega)]
    have e1 : stop - cur = 0 := by omega
    rw [List.length_nil, e1]
    exact (Nat.div_eq_of_lt (by omega)).symm
termination_by stop - cur
decreasing_by omega

theorem innerLoop_tail {P S L O G : Type} (f : P → S → G × S × Option L)
    (optimizer : G → P → P) (is : List Nat) (hzero : ∀ i ∈ is, i ≠ 0)
    (s : DriverState P S L O) :
    (innerLoop (liftFab f) optimizer is s).yields = [] ∧
    (innerLoop (liftFab f) optimizer is s).events = advancesTrace is.length ∧
    (innerLoop (liftFab f) optimizer is s).err = none ∧
    (innerLoop (liftFab f) optimizer is s).state.step_count =
      s.step_count + 2 * is.length := by
  induction is generalizing s with
  | nil => simp [innerLoop, advancesTrace]
  | cons i rest ih =>
    have hi : i ≠ 0 := hzero i (by simp)
    have hrest : ∀ j ∈ rest, j ≠ 0 := fun j hj => hzero j (by simp [hj])
    simp only [innerLoop, liftFab, if_neg hi, List.nil_append, List.length_cons,
      advancesTrace]
    refine ⟨(ih hrest _).1, ?_, (ih hrest _).2.2.1, ?_⟩
    · rw [(ih hrest _).2.1]
    · rw [(ih hrest _).2.2.2]
      simp only [update_parameters]
      omega

theorem innerLoop_batch {P S L O G : Type} (f : P → S → G × S × Option L)
    (optimizer : G → P → P) (step : Nat) (h : 1 ≤ step)
    (s : DriverState P S L O) :
    (innerLoop (liftFab f) optimizer (List.range step) s).yields =
      [s.step_count] ∧
    (innerLoop (liftFab f) optimizer (List.range step) s).events =
      batchTrace s.step_count step ∧
    (innerLoop (liftFab f) optimizer (List.range step) s).err = none ∧
    (innerLoop (liftFab f) optimizer (List.range step) s).state.step_count =
      s.step_count + 2 * step := by
  obtain ⟨k, rfl⟩ : ∃ k, step = k + 1 := ⟨step - 1, by omega⟩
  rw [List.range_succ_eq_map]
  have hzero : ∀ j ∈ (List.range k).map Nat.succ, j ≠ 0 := by
    intro j hj
    obtain ⟨m, _, rfl⟩ := List.mem_map.mp hj
    exact Nat.succ_ne_zero m
  simp only [innerLoop, liftFab, batchTrace, Nat.add_sub_cancel]
  refine ⟨?_, ?_, (innerLoop_tail f optimizer _ hzero _).2.2.1, ?_⟩
  · rw [(innerLoop_tail f optimizer _ hzero _).1]
    simp
  · rw [(innerLoop_tail f optimizer _ hzero _).2.1]
    simp
  · rw [(innerLoop_tail f optimizer _ hzero _).2.2.2]
    simp only [update_parameters, List.length_map, List.length_range]
    omega

theorem outerLoop_trace {P S L O G : Type} (f : P → S → G × S × Option L)
    (optimizer : G → P → P) (step : Nat) (h : 1 ≤ step) (bs : List Nat)
    (s : DriverState P S L O) :
    (outerLoop (liftFab f) optimizer step bs s).yields =
      expectedYields s.step_count step bs.length ∧
    (outerLoop (liftFab f) optimizer step bs s).events =
      fullTrace s.step_count step bs.length ∧
    (outerLoop (liftFab f) optimizer step bs s).err = none ∧
    (outerLoop (liftFab f) optimizer step bs s).state.step_count =
      s.step_count + 2 * step * bs.length := by
  induction bs generalizing s with
  | nil => simp [outerLoop, expectedYields, fullTrace]
  | cons b rest ih =>
    obtain ⟨b1, b2, b3, b4⟩ := innerLoop_batch f optimizer step h s
    simp only [outerLoop, b3, List.length_cons, expectedYields, fullTrace]
    obtain ⟨i1, i2, i3, i4⟩ := ih ((innerLoop (liftFab f) optimizer (List.range step) s).state)
    rw [b4] at i1 i2 i4
    refine ⟨?_, ?_, i3, ?_⟩
    · rw [b1, i1, List.singleton_append]
    · rw [b2, i2]
    · rw [i4]
      ring

/-- Full consumption of `iter(n, step)` for a driver with an infallible
forward/backward strategy and `step >= 1`: no exception, `numBatches n step`
batches, yields and event trace as in `expectedYields` / `fullTrace`, and
the step counter raised by `2 * step` per batch. -/
theorem consume_iter_lift {P S L O G : Type} (f : P → S → G × S × Option L)
    (optimizer : G → P → P) (n step : Nat) (h : 1 ≤ step)
    (s : DriverState P S L O) :
    (consume (liftFab f) optimizer (iter n step s)).yields =
      expectedYields s.step_count step (numBatches n step) ∧
    (consume (liftFab f) optimizer (iter n step s)).events =
      fullTrace s.step_count step (numBatches n step) ∧
    (consume (liftFab f) optimizer (iter n step s)).err = none ∧
    (consume (liftFab f) optimizer (iter n step s)).state.step_count =
      s.step_count + 2 * step * numBatches n step := by
  have hb : (pyRange 0 n step).length = numBatches n step := by
    rw [pyRange_length 0 n step (by omega), numBatches, Nat.sub_zero]
  have hstep : ¬(step = 0) := by omega
  simp only [consume, iter, if_neg hstep]
  rw [← hb]
  exact outerLoop_trace f optimizer step h (pyRange 0 n step) s

theorem countFab_advancesTrace (k : Nat) :
    (advancesTrace k).countP isFabCall = k := by
  induction k with
  | zero => simp [advancesTrace]
  | succ k ih => simp [advancesTrace, List.countP_cons, isFabCall, ih]

theorem countFab_fullTrace (c step b : Nat) (h : 1 ≤ step) :
    (fullTrace c step b).countP isFabCall = b * step := by
  induction b generalizing c with
  | zero => simp [fullTrace]
  | succ b ih =>
    simp [fullTrace, List.countP_append, batchTrace, List.countP_cons,
      isFabCall, countFab_advancesTrace, ih]
    have e : (b + 1) * step = b * step + step := by ring
    omega

/-- A concrete infallible forward/backward hook over trivial collaborator
types, used for concrete evaluations. -/
def trivialPure : Unit → Unit → Unit × Unit × Option Unit :=
  fun _ _ => ((), (), none)

/-- The corresponding `FabFn`. -/
def trivialFab : FabFn Unit Unit Unit Unit :=
  liftFab trivialPure

/-- A trivial optimizer hook: returns the parameters unchanged. -/
def trivialOpt : Unit → Unit → Unit :=
  fun _ p => p

/-- A freshly constructed trivial driver on the primary process. -/
def trivialState : DriverState Unit Unit Unit Unit :=
  driver_init 0 1 ⟨()⟩ "" ()

/-- A trivial driver whose step counter has already advanced to 7. -/
def staleState : DriverState Unit Unit Unit Unit :=
  { trivialState with step_count := 7 }

/-- Claim C1 (code bug): the claim says that fully consuming
`iter(n_steps, step)` leaves the step counter at its initial value plus
`n_steps`.  At the failing input `n_steps = 1`, `step = 1`, initial counter
`0`, the code yields the expected single value `0` and raises nothing, but
leaves the counter at `2`, not `1`: `iter` increments `_step_count` (line
152) and then calls `update_parameters`, which increments it again (line
286), so each inner advance adds 2. -/
theorem c1_step_count_double_increment :
    (consume (liftFab trivialPure) trivialOpt (iter 1 1 trivialState)).yields
      = [0] ∧
    (consume (liftFab trivialPure) trivialOpt (iter 1 1 trivialState)).err
      = none ∧
    (consume (liftFab trivialPure) trivialOpt
      (iter 1 1 trivialState)).state.step_count = 2 := by
  obtain ⟨hy, he, hn, hc⟩ :=
    consume_iter_lift trivialPure trivialOpt 1 1 (by omega) trivialState
  rw [hy, hc]
  exact ⟨by decide, hn, by decide⟩

/-- Claim C2 (counterexample): the claim says fully consuming
`iter(n_steps, step)` performs exactly `n_steps` inner advances for every
`n_steps >= 0`, `step >= 1`.  At `n_steps = 3`, `step = 2` the code performs
4 `_forward_and_backward` calls, not 3: `range(0, 3, 2)` has 2 batches of 2
advances each. -/
theorem c2_exact_advance_count_refuted :
    (consume (liftFab trivialPure) trivialOpt
      (iter 3 2 trivialState)).events.countP isFabCall = 4 ∧
    ¬((consume (liftFab trivialPure) trivialOpt
      (iter 3 2 trivialState)).events.countP isFabCall = 3) := by
  obtain ⟨hy, he, hn, hc⟩ :=
    consume_iter_lift trivialPure trivialOpt 3 2 (by omega) trivialState
  rw [he, countFab_fullTrace _ _ _ (by omega)]
  exact ⟨by decide, by decide⟩

/-- Claim C2 (amended): for every `n_steps >= 0` and `step >= 1` and an
infallible forward/backward hook, fully consuming `iter(n_steps, step)`
raises nothing and performs `step * ceil(n_steps / step)` inner advances
(equal to `n_steps` exactly when `step` divides `n_steps`), grouped into
`ceil(n_steps / step)` batches of `step` advances; each batch's trace is
one `_forward_and_backward` call, then the yield of the pre-batch step-count
value, then the first parameter update, then the remaining `step - 1`
advances (so the yield happens after the batch's first
`_forward_and_backward`, not before it); each advance increments the step
counter twice (once in `iter`, once in `update_parameters`), so the final
counter is the initial one plus `2 * step` per batch. -/
theorem c2_iter_batches_amended {P S L O G : Type}
    (f : P → S → G × S × Option L) (optimizer : G → P → P) (n step : Nat)
    (h : 1 ≤ step) (s : DriverState P S L O) :
    (consume (liftFab f) optimizer (iter n step s)).err = none ∧
    (consume (liftFab f) optimizer (iter n step s)).yields =
      expectedYields s.step_count step (numBatches n step) ∧
    (consume (liftFab f) optimizer (iter n step s)).events =
      fullTrace s.step_count step (numBatches n step) ∧
    (consume (liftFab f) optimizer (iter n step s)).events.countP isFabCall =
      numBatches n step * step ∧
    (n % step = 0 →
      (consume (liftFab f) optimizer (iter n step s)).events.countP isFabCall
        = n) ∧
    (consume (liftFab f) optimizer (iter n step s)).state.step_count =
      s.step_count + 2 * step * numBatches n step := by
  obtain ⟨hy, he, hn, hc⟩ := consume_iter_lift f optimizer n step h s
  refine ⟨hn, hy, he, ?_, ?_, hc⟩
  · rw [he, countFab_fullTrace _ _ _ h]
  · intro hmod
    rw [he, countFab_fullTrace _ _ _ h, numBatches]
    obtain ⟨q, rfl⟩ := Nat.dvd_of_mod_eq_zero hmod
    have e1 : step * q + step - 1 = step * q + (step - 1) := by omega
    rw [e1, Nat.mul_add_div (by omega), Nat.div_eq_of_lt (by omega)]
    ring

/-- Witness for C2 (amended) at `n_steps = 3`, `step = 2` on the trivial
driver. -/
theorem c2_iter_batches_amended_witness :
    (1 ≤ 2) ∧
    ((consume (liftFab trivialPure) trivialOpt (iter 3 2 trivialState)).err
        = none ∧
      (consume (liftFab trivialPure) trivialOpt (iter 3 2 trivialState)).yields
        = expectedYields trivialState.step_count 2 (numBatches 3 2) ∧
      (consume (liftFab trivialPure) trivialOpt (iter 3 2 trivialState)).events
        = fullTrace trivialState.step_count 2 (numBatches 3 2) ∧
      (consume (liftFab trivialPure) trivialOpt
          (iter 3 2 trivialState)).events.countP isFabCall
        = numBatches 3 2 * 2 ∧
      (3 % 2 = 0 →
        (consume (liftFab trivialPure) trivialOpt
            (iter 3 2 trivialState)).events.countP isFabCall = 3) ∧
      (consume (liftFab trivialPure) trivialOpt
          (iter 3 2 trivialState)).state.step_count
        = trivialState.step_count + 2 * 2 * numBatches 3 2) :=
  ⟨by decide,
    c2_iter_batches_amended trivialPure trivialOpt 3 2 (by decide)
      trivialState⟩

/-- Claim C3: `update_parameters(dp)` sets the machine's parameter slot to
exactly `optimizer.update(dp, current_parameters)`, increments the step
counter by exactly 1, and modifies no other field of the driver, for every
`dp` however produced. -/
theorem c3_update_parameters {P S L O G : Type} (optimizer : G → P → P)
    (dp : G) (s : DriverState P S L O) :
    (update_parameters optimizer dp s).machine.parameters =
      optimizer dp s.machine.parameters ∧
    (update_parameters optimizer dp s).step_count = s.step_count + 1 ∧
    (update_parameters optimizer dp s).mynode = s.mynode ∧
    (update_parameters optimizer dp s).mpi_nodes = s.mpi_nodes ∧
    (update_parameters optimizer dp s).obs = s.obs ∧
    (update_parameters optimizer dp s).loss_stats = s.loss_stats ∧
    (update_parameters optimizer dp s).loss_name = s.loss_name ∧
    (update_parameters optimizer dp s).internal = s.internal :=
  ⟨rfl, rfl, rfl, rfl, rfl, rfl, rfl, rfl⟩

/-- Claim C4: a concrete driver that overrides neither
`_forward_and_backward` nor both of `_forward`/`_backward` is constructed
without error (`__init__` only assigns attributes and performs no contract
check), and the first call to `advance(1)` raises `NotImplementedError` at
the first `_forward_and_backward` invocation, before any yield or parameter
update, leaving the driver state unchanged. -/
theorem c4_lazy_unimplemented_contract {P S L O G : Type}
    (optimizer : G → P → P) (rank n_nodes : Nat) (machine : Machine P)
    (name : String) (st : S) :
    (driver_init rank n_nodes machine name st : DriverState P S L O).step_count
      = 0 ∧
    (driver_init rank n_nodes machine name st
      : DriverState P S L O).loss_stats = none ∧
    advance (defaultFab : FabFn P G S L) optimizer 1
        (driver_init rank n_nodes machine name st : DriverState P S L O) =
      ⟨[], [IterEvent.fabCall],
        (driver_init rank n_nodes machine name st : DriverState P S L O),
        some PyErr.notImplementedError⟩ := by
  have h1 : pyRange 0 1 1 = [0] := by
    rw [pyRange_pos 0 1 1 (by omega) (by omega),
      pyRange_nil (0 + 1) 1 1 (by omega)]
  refine ⟨rfl, rfl, ?_⟩
  simp only [advance, consume, iter]
  rw [if_neg (by omega : ¬(1 = 0)), h1]
  rfl

/-- Claim C9 (code bug): the claim says that after `reset()` the counter is
0 and a subsequent `advance(1)` yields 0 internally and leaves the counter
at 1.  `reset` does set the counter to 0 and `advance(1)` does yield 0, but
the counter ends at 2, not 1, because each advance increments the counter
both in `iter` (line 152) and in `update_parameters` (line 286). -/
theorem c9_reset_advance_double_increment :
    (reset staleState).step_count = 0 ∧
    (advance (liftFab trivialPure) trivialOpt 1 (reset staleState)).yields
      = [0] ∧
    (advance (liftFab trivialPure) trivialOpt 1 (reset staleState)).err
      = none ∧
    (advance (liftFab trivialPure) trivialOpt 1
      (reset staleState)).state.step_count = 2 := by
  obtain ⟨hy, he, hn, hc⟩ :=
    consume_iter_lift trivialPure trivialOpt 1 1 (by omega) (reset staleState)
  refine ⟨by decide, ?_, hn, ?_⟩
  · rw [show advance (liftFab trivialPure) trivialOpt 1 (reset staleState) =
      consume (liftFab trivialPure) trivialOpt (iter 1 1 (reset staleState))
      from rfl, hy]
    decide
  · rw [show advance (liftFab trivialPure) trivialOpt 1 (reset staleState) =
      consume (liftFab trivialPure) trivialOpt (iter 1 1 (reset staleState))
      from rfl, hc]
    decide

/-- Values that can be passed positionally to `run` for `n_iter`/`out`:
an integer, a string (output path), `None`, a single logger object, or an
iterable of logger objects (identified by opaque ids). -/
inductive PyVal where
  | int (n : Nat)
  | str (s : String)
  | pyNone
  | loggerSingle (id : Nat)
  | loggerSeq (ids : List Nat)
deriving DecidableEq

/-- A logger sink in the resolved logger tuple: the default
`JsonLog(out, "w", save_params_every, write_every)` auto-constructed from a
path string (source line 225), an externally supplied sink, or a
non-callable object wrapped by the `(out,)` fallback branch. -/
inductive LoggerRef where
  | jsonLog (out_path mode : String) (save_params_every write_every : Nat)
  | external (id : Nat)
  | nonCallable (v : PyVal)
deriving DecidableEq

/-- Externally visible `run` events besides the iteration itself: the
console notice for a missing output target, the deprecation warning for
reversed arguments, a sink invocation `logger(step_count, data, machine)`,
and a sink `flush(machine)` call. -/
inductive RunEvent where
  | printedNoOutput
  | deprecationWarning
  | logCall (sink : LoggerRef) (step : Nat)
  | flushCall (sink : LoggerRef)
deriving DecidableEq

/-- `true` exactly on logger-sink invocations (`logCall`/`flushCall`). -/
def isSinkEvent : RunEvent → Bool
  | .logCall _ _ => true
  | .flushCall _ => true
  | _ => false

/-- The legacy reversed call shape detected by `run` (source line 201):
`type(n_iter) is str and type(out) is int`. -/
def isLegacyShape : PyVal → PyVal → Bool
  | .str _, .int _ => true
  | _, _ => false

/-- The deprecated argument-order correction in `run` (source lines
197-205): when `n_iter` is a string and `out` an integer they are swapped
and a deprecation notice is emitted (`true` in the third component); in
every other case the arguments pass through unchanged. -/
def resolve_run_args (n_iter out : PyVal) : PyVal × PyVal × Bool :=
  match n_iter, out with
  | .str s, .int n => (.int n, .str s, true)
  | a, b => (a, b, false)

/-- Logger-set and progress gating in `run` (source lines 221-232): on the
primary process a path string builds one overwriting `JsonLog`, an iterable
is used as the sink tuple, anything else is wrapped in a one-element tuple;
on a non-primary process the sink tuple is empty and progress is disabled. -/
def resolveLoggers (mynode : Nat) (out : PyVal)
    (save_params_every write_every : Nat) (show_progress : Bool) :
    List LoggerRef × Bool :=
  if mynode = 0 then
    (match out with
      | .str p => [.jsonLog p "w" save_params_every write_every]
      | .loggerSeq ids => ids.map LoggerRef.external
      | .loggerSingle id => [.external id]
      | v => [.nonCallable v],
      show_progress)
  else ([], false)

/-- Outcome of a `run` call: the `run`-level event trace, the iteration
event trace of the inner `iter` generator, whether the progress bar was
created disabled, the resolved sink tuple, the final driver state and the
escaped exception, if any. -/
structure RunOutcome (P S L O : Type) where
  events : List RunEvent
  iter_events : List IterEvent
  progress_disabled : Bool
  loggers : List LoggerRef
  state : DriverState P S L O
  err : Option PyErr
deriving DecidableEq

/-- `run(n_iter, out, obs, show_progress, save_params_every, write_every,
step_size)` (source lines 164-262).  The body of the reporting loop runs
once per value yielded by `iter(n_iter, step_size)` and, at that moment,
`self.step_count` equals the yielded value (the yield reads the counter and
nothing increments it before the generator suspends), so each sink is
invoked with the yielded value.  The logged data (the `estimate(obs)`
pytree merged with the loss statistics) is read-only with respect to the
driver state and is not tracked, only the sink invocations are.  After the
loop, on normal completion only, every sink's `flush` is called in order;
an exception escaping the loop skips the flush (no `try`/`finally`).  A
non-integer effective `n_iter` makes the loop machinery raise a
`TypeError`. -/
def run {P S L O G : Type} (fab : FabFn P G S L) (optimizer : G → P → P)
    (n_iter_arg out_arg : PyVal) (obs : Option (List (String × O)))
    (show_progress : Bool) (save_params_every write_every step_size : Nat)
    (s : DriverState P S L O) : RunOutcome P S L O :=
  let r := resolve_run_args n_iter_arg out_arg
  let depEvents : List RunEvent :=
    if r.2.2 then [.deprecationWarning] else []
  let _effective_obs : List (String × O) :=
    match obs with
    | some o => o
    | none => s.obs
  let outAndPrint : PyVal × List RunEvent :=
    match r.2.1 with
    | .pyNone => (.loggerSeq [], [RunEvent.printedNoOutput])
    | v => (v, [])
  let lg := resolveLoggers s.mynode outAndPrint.1 save_params_every
    write_every show_progress
  match r.1 with
  | .int n =>
    let itOut := consume fab optimizer (iter n step_size s)
    let logEvents : List RunEvent :=
      (itOut.yields.map
        (fun v => lg.1.map (fun sink => RunEvent.logCall sink v))).flatten
    match itOut.err with
    | some e =>
      ⟨depEvents ++ outAndPrint.2 ++ logEvents, itOut.events, !lg.2, lg.1,
        itOut.state, some e⟩
    | none =>
      ⟨depEvents ++ outAndPrint.2 ++ logEvents ++ lg.1.map RunEvent.flushCall,
        itOut.events, !lg.2, lg.1, itOut.state, none⟩
  | _ =>
    ⟨depEvents ++ outAndPrint.2, [], !lg.2, lg.1, s,
      some (.typeError "n_iter must be an integer")⟩

theorem flatten_map_nil {α β : Type} (ys : List α) :
    (ys.map (fun _ => ([] : List β))).flatten = [] := by
  induction ys <;> simp [*]

theorem flatten_map_singleton {α β : Type} (f : α → β) (ys : List α) :
    (ys.map (fun v => [f v])).flatten = ys.map f := by
  induction ys <;> simp [*]

theorem numBatches_mul_of_dvd (n step : Nat) (h : 1 ≤ step)
    (hmod : n % step = 0) : numBatches n step * step = n := by
  obtain ⟨q, rfl⟩ := Nat.dvd_of_mod_eq_zero hmod
  rw [numBatches]
  have e1 : step * q + step - 1 = step * q + (step - 1) := by omega
  rw [e1, Nat.mul_add_div (by omega), Nat.div_eq_of_lt (by omega)]
  ring

/-- An arbitrarily nested pytree: a leaf value, a string-keyed mapping of
pytrees, or a sequence of pytrees (spec glossary: "Pytree"). -/
inductive Pytree (α : Type) where
  | leaf (x : α)
  | mapNode (entries : List (String × Pytree α))
  | seqNode (entries : List (Pytree α))

mutual

/-- Modelled from the spec: `tree_map` from `netket/vmc_common.py` is not
under `src/`; per spec section 4.1 it "maps `estimate_stats` over an
arbitrary pytree of operators, preserving input structure", supporting
"arbitrarily nested mapping/sequence structures, not just flat
dictionaries". -/
def tree_map {α β : Type} (f : α → β) : Pytree α → Pytree β
  | .leaf x => .leaf (f x)
  | .mapNode es => .mapNode (tree_map_entries f es)
  | .seqNode es => .seqNode (tree_map_list f es)

/-- `tree_map` over the entries of a mapping node. -/
def tree_map_entries {α β : Type} (f : α → β) :
    List (String × Pytree α) → List (String × Pytree β)
  | [] => []
  | (k, t) :: rest => (k, tree_map f t) :: tree_map_entries f rest

/-- `tree_map` over the entries of a sequence node. -/
def tree_map_list {α β : Type} (f : α → β) :
    List (Pytree α) → List (Pytree β)
  | [] => []
  | t :: rest => tree_map f t :: tree_map_list f rest

end

/-- `estimate(observables)` (source lines 264-276):
`tree_map(self._estimate_stats, observables)`, with the `_estimate_stats`
hook passed explicitly. -/
def estimate {α β : Type} (estimate_stats : α → β)
    (observables : Pytree α) : Pytree β :=
  tree_map estimate_stats observables

mutual

/-- The structure (shape) of a pytree: every leaf value erased. -/
def pshape {α : Type} : Pytree α → Pytree Unit
  | .leaf _ => .leaf ()
  | .mapNode es => .mapNode (pshape_entries es)
  | .seqNode es => .seqNode (pshape_list es)

/-- `pshape` over the entries of a mapping node. -/
def pshape_entries {α : Type} :
    List (String × Pytree α) → List (String × Pytree Unit)
  | [] => []
  | (k, t) :: rest => (k, pshape t) :: pshape_entries rest

/-- `pshape` over the entries of a sequence node. -/
def pshape_list {α : Type} : List (Pytree α) → List (Pytree Unit)
  | [] => []
  | t :: rest => pshape t :: pshape_list rest

end

mutual

/-- The leaves of a pytree, in traversal order. -/
def pleaves {α : Type} : Pytree α → List α
  | .leaf x => [x]
  | .mapNode es => pleaves_entries es
  | .seqNode es => pleaves_list es

/-- `pleaves` over the entries of a mapping node. -/
def pleaves_entries {α : Type} : List (String × Pytree α) → List α
  | [] => []
  | (_, t) :: rest => pleaves t ++ pleaves_entries rest

/-- `pleaves` over the entries of a sequence node. -/
def pleaves_list {α : Type} : List (Pytree α) → List α
  | [] => []
  | t :: rest => pleaves t ++ pleaves_list rest

end

mutual

theorem pshape_tree_map {α β : Type} (f : α → β) :
    (t : Pytree α) → pshape (tree_map f t) = pshape t
  | .leaf _ => rfl
  | .mapNode es => congrArg Pytree.mapNode (pshape_tree_map_entries f es)
  | .seqNode es => congrArg Pytree.seqNode (pshape_tree_map_list f es)

theorem pshape_tree_map_entries {α β : Type} (f : α → β) :
    (es : List (String × Pytree α)) →
      pshape_entries (tree_map_entries f es) = pshape_entries es
  | [] => rfl
  | (k, t) :: rest => by
    simp only [tree_map_entries, pshape_entries]
    rw [pshape_tree_map f t, pshape_tree_map_entries f rest]

theorem pshape_tree_map_list {α β : Type} (f : α → β) :
    (es : List (Pytree α)) →
      pshape_list (tree_map_list f es) = pshape_list es
  | [] => rfl
  | t :: rest => by
    simp only [tree_map_list, pshape_list]
    rw [pshape_tree_map f t, pshape_tree_map_list f rest]

end

mutual

theorem pleaves_tree_map {α β : Type} (f : α → β) :
    (t : Pytree α) → pleaves (tree_map f t) = (pleaves t).map f
  | .leaf _ => rfl
  | .mapNode es => pleaves_tree_map_entries f es
  | .seqNode es => pleaves_tree_map_list f es

theorem pleaves_tree_map_entries {α β : Type} (f : α → β) :
    (es : List (String × Pytree α)) →
      pleaves_entries (tree_map_entries f es) = (pleaves_entries es).map f
  | [] => rfl
  | (k, t) :: rest => by
    simp only [tree_map_entries, pleaves_entries, List.map_append]
    rw [pleaves_tree_map f t, pleaves_tree_map_entries f rest]

theorem pleaves_tree_map_list {α β : Type} (f : α → β) :
    (es : List (Pytree α)) →
      pleaves_list (tree_map_list f es) = (pleaves_list es).map f
  | [] => rfl
  | t :: rest => by
    simp only [tree_map_list, pleaves_list, List.map_append]
    rw [pleaves_tree_map f t, pleaves_tree_map_list f rest]

end

/-- Claim C8: `estimate(observables)` returns a pytree of the same
structure as its input whose every leaf equals `estimate_stats` applied to
the corresponding input leaf, for arbitrarily nested mapping/sequence
pytrees; in particular a two-key mapping of operators is sent to the
mapping with exactly the same two keys and the corresponding estimates as
values. -/
theorem c8_estimate_pytree {α β : Type} (estimate_stats : α → β)
    (t : Pytree α) (op1 op2 : α) (k1 k2 : String) :
    pshape (estimate estimate_stats t) = pshape t ∧
    pleaves (estimate estimate_stats t) = (pleaves t).map estimate_stats ∧
    estimate estimate_stats
        (.mapNode [(k1, .leaf op1), (k2, .leaf op2)]) =
      .mapNode [(k1, .leaf (estimate_stats op1)),
        (k2, .leaf (estimate_stats op2))] :=
  ⟨pshape_tree_map estimate_stats t, pleaves_tree_map estimate_stats t, rfl⟩

/-- A freshly constructed trivial driver on a non-primary process
(rank 1 of 2). -/
def nonPrimaryState : DriverState Unit Unit Unit Unit :=
  driver_init 1 2 ⟨()⟩ "" ()

/-- Claim C5: with no output target (`out=None`) `run` raises nothing,
prints the console notice and invokes no logger sink, on any process; with
a path string as `out` on the primary process it constructs exactly one
default `JsonLog` at that path in overwrite mode (`"w"`), invokes it once
per reported batch, and calls its `flush` exactly once, after the loop
completes, on a successful run — the flush is the final event. -/
theorem c5_run_output_targets {P S L O G : Type}
    (f : P → S → G × S × Option L) (optimizer : G → P → P) (n : Nat)
    (obs : Option (List (String × O))) (pr : Bool) (spe we ss : Nat)
    (p : String) (s s₀ : DriverState P S L O)
    (hss : 1 ≤ ss) (h0 : s₀.mynode = 0) :
    (run (liftFab f) optimizer (.int n) .pyNone obs pr spe we ss s).err
      = none ∧
    (run (liftFab f) optimizer (.int n) .pyNone obs pr spe we ss s).loggers
      = [] ∧
    (run (liftFab f) optimizer (.int n) .pyNone obs pr spe we ss s).events
      = [RunEvent.printedNoOutput] ∧
    (run (liftFab f) optimizer (.int n) (.str p) obs pr spe we ss s₀).err
      = none ∧
    (run (liftFab f) optimizer (.int n) (.str p) obs pr spe we ss s₀).loggers
      = [LoggerRef.jsonLog p "w" spe we] ∧
    (run (liftFab f) optimizer (.int n) (.str p) obs pr spe we ss s₀).events
      = (expectedYields s₀.step_count ss (numBatches n ss)).map
          (RunEvent.logCall (LoggerRef.jsonLog p "w" spe we)) ++
        [RunEvent.flushCall (LoggerRef.jsonLog p "w" spe we)] := by
  obtain ⟨hy1, he1, hn1, hc1⟩ := consume_iter_lift f optimizer n ss hss s
  obtain ⟨hy2, he2, hn2, hc2⟩ := consume_iter_lift f optimizer n ss hss s₀
  refine ⟨?_, ?_, ?_, ?_, ?_, ?_⟩
  · by_cases hm : s.mynode = 0 <;>
      simp [run, resolve_run_args, resolveLoggers, hm, hn1]
  · by_cases hm : s.mynode = 0 <;>
      simp [run, resolve_run_args, resolveLoggers, hm, hn1]
  · by_cases hm : s.mynode = 0 <;>
      simp [run, resolve_run_args, resolveLoggers, hm, hn1, flatten_map_nil]
  · simp [run, resolve_run_args, resolveLoggers, h0, hn2]
  · simp [run, resolve_run_args, resolveLoggers, h0, hn2]
  · simp [run, resolve_run_args, resolveLoggers, h0, hn2, hy2,
      flatten_map_singleton]

/-- Witness for C5 at `n_iter = 1`, `step_size = 1`, path `"log"` on the
trivial primary-process driver. -/
theorem c5_run_output_targets_witness :
    (1 ≤ 1) ∧ trivialState.mynode = 0 ∧
    ((run (liftFab trivialPure) trivialOpt (.int 1) .pyNone none true 50 50 1
        trivialState).err = none ∧
      (run (liftFab trivialPure) trivialOpt (.int 1) .pyNone none true 50 50 1
        trivialState).loggers = [] ∧
      (run (liftFab trivialPure) trivialOpt (.int 1) .pyNone none true 50 50 1
        trivialState).events = [RunEvent.printedNoOutput] ∧
      (run (liftFab trivialPure) trivialOpt (.int 1) (.str "log") none true
        50 50 1 trivialState).err = none ∧
      (run (liftFab trivialPure) trivialOpt (.int 1) (.str "log") none true
        50 50 1 trivialState).loggers = [LoggerRef.jsonLog "log" "w" 50 50] ∧
      (run (liftFab trivialPure) trivialOpt (.int 1) (.str "log") none true
        50 50 1 trivialState).events
        = (expectedYields trivialState.step_count 1 (numBatches 1 1)).map
            (RunEvent.logCall (LoggerRef.jsonLog "log" "w" 50 50)) ++
          [RunEvent.flushCall (LoggerRef.jsonLog "log" "w" 50 50)]) :=
  ⟨by decide, by decide,
    c5_run_output_targets trivialPure trivialOpt 1 none true 50 50 1 "log"
      trivialState trivialState (by decide) (by decide)⟩

/-- Claim C6 (counterexample): the claim says every `run` on a non-primary
process still advances the optimization `n_iter` inner advances.  With
`n_iter = 3` and `step_size = 2` the run completes without error but
performs 4 inner advances, not 3 (the batch count is rounded up). -/
theorem c6_requested_steps_refuted :
    (run (liftFab trivialPure) trivialOpt (.int 3) (.loggerSeq [1])
      (some [("A", ())]) true 50 50 2 nonPrimaryState).err = none ∧
    (run (liftFab trivialPure) trivialOpt (.int 3) (.loggerSeq [1])
      (some [("A", ())]) true 50 50 2 nonPrimaryState).iter_events.countP
        isFabCall = 4 ∧
    ¬((run (liftFab trivialPure) trivialOpt (.int 3) (.loggerSeq [1])
      (some [("A", ())]) true 50 50 2 nonPrimaryState).iter_events.countP
        isFabCall = 3) := by
  obtain ⟨hy, he, hn, hc⟩ :=
    consume_iter_lift trivialPure trivialOpt 3 2 (by omega) nonPrimaryState
  refine ⟨?_, ?_, ?_⟩ <;>
    simp only [run, resolve_run_args, resolveLoggers, hn, he,
      show nonPrimaryState.mynode = 1 from rfl] <;>
    decide

/-- Claim C6 (amended): on a non-primary process (rank != 0), for any output
target and observables, `run(n_iter, ...)` raises nothing (given an
infallible driver and `step_size >= 1`), resolves an empty sink tuple,
invokes no logger sink, creates the progress bar disabled, and still
advances the optimization — but by `step_size * ceil(n_iter / step_size)`
inner advances, which equals `n_iter` exactly when `step_size` divides
`n_iter` (in particular at the default `step_size = 1`). -/
theorem c6_nonprimary_amended {P S L O G : Type}
    (f : P → S → G × S × Option L) (optimizer : G → P → P) (n : Nat)
    (out_arg : PyVal) (obs : Option (List (String × O))) (pr : Bool)
    (spe we ss : Nat) (s : DriverState P S L O)
    (hss : 1 ≤ ss) (hr : s.mynode ≠ 0) :
    (run (liftFab f) optimizer (.int n) out_arg obs pr spe we ss s).err
      = none ∧
    (run (liftFab f) optimizer (.int n) out_arg obs pr spe we ss s).loggers
      = [] ∧
    (run (liftFab f) optimizer (.int n) out_arg obs pr spe we ss
      s).progress_disabled = true ∧
    (∀ e ∈ (run (liftFab f) optimizer (.int n) out_arg obs pr spe we ss
      s).events, isSinkEvent e = false) ∧
    (run (liftFab f) optimizer (.int n) out_arg obs pr spe we ss
      s).iter_events.countP isFabCall = numBatches n ss * ss ∧
    (n % ss = 0 →
      (run (liftFab f) optimizer (.int n) out_arg obs pr spe we ss
        s).iter_events.countP isFabCall = n) ∧
    (run (liftFab f) optimizer (.int n) out_arg obs pr spe we ss
      s).state.step_count = s.step_count + 2 * ss * numBatches n ss := by
  obtain ⟨hy, he, hn, hc⟩ := consume_iter_lift f optimizer n ss hss s
  have hcf := countFab_fullTrace s.step_count ss (numBatches n ss) hss
  have hcount : (run (liftFab f) optimizer (.int n) out_arg obs pr spe we ss
      s).iter_events.countP isFabCall = numBatches n ss * ss := by
    cases out_arg <;>
      simp [run, resolve_run_args, resolveLoggers, hr, hn, he, hcf]
  refine ⟨?_, ?_, ?_, ?_, hcount, fun hmod => ?_, ?_⟩
  · cases out_arg <;>
      simp [run, resolve_run_args, resolveLoggers, hr, hn]
  · cases out_arg <;>
      simp [run, resolve_run_args, resolveLoggers, hr, hn]
  · cases out_arg <;>
      simp [run, resolve_run_args, resolveLoggers, hr, hn]
  · cases out_arg <;>
      simp [run, resolve_run_args, resolveLoggers, hr, hn, flatten_map_nil,
        isSinkEvent]
  · rw [hcount]
    exact numBatches_mul_of_dvd n ss hss hmod
  · cases out_arg <;>
      simp [run, resolve_run_args, resolveLoggers, hr, hn, hc]

/-- Witness for C6 (amended) at `n_iter = 2`, `step_size = 1`, `out = None`
on the trivial rank-1 driver. -/
theorem c6_nonprimary_amended_witness :
    (1 ≤ 1) ∧ nonPrimaryState.mynode ≠ 0 ∧
    ((run (liftFab trivialPure) trivialOpt (.int 2) .pyNone none true 50 50 1
        nonPrimaryState).err = none ∧
      (run (liftFab trivialPure) trivialOpt (.int 2) .pyNone none true 50 50 1
        nonPrimaryState).loggers = [] ∧
      (run (liftFab trivialPure) trivialOpt (.int 2) .pyNone none true 50 50 1
        nonPrimaryState).progress_disabled = true ∧
      (∀ e ∈ (run (liftFab trivialPure) trivialOpt (.int 2) .pyNone none true
        50 50 1 nonPrimaryState).events, isSinkEvent e = false) ∧
      (run (liftFab trivialPure) trivialOpt (.int 2) .pyNone none true 50 50 1
        nonPrimaryState).iter_events.countP isFabCall = numBatches 2 1 * 1 ∧
      (2 % 1 = 0 →
        (run (liftFab trivialPure) trivialOpt (.int 2) .pyNone none true 50
          50 1 nonPrimaryState).iter_events.countP isFabCall = 2) ∧
      (run (liftFab trivialPure) trivialOpt (.int 2) .pyNone none true 50 50 1
        nonPrimaryState).state.step_count
        = nonPrimaryState.step_count + 2 * 1 * numBatches 2 1) :=
  ⟨by decide, by decide,
    c6_nonprimary_amended trivialPure trivialOpt 2 .pyNone none true 50 50 1
      nonPrimaryState (by decide) (by decide)⟩

/-- Claim C7: a legacy call `run(out_path_string, n_int)` behaves exactly
like `run(n_int, out_path_string)` except that one deprecation notice is
prepended to its events; and for every other type combination of the first
two positional arguments no reordering is inferred and no deprecation
notice is emitted. -/
theorem c7_reversed_run_args {P S L O G : Type} :
    (∀ (fab : FabFn P G S L) (optimizer : G → P → P) (sp : String) (n : Nat)
      (obs : Option (List (String × O))) (pr : Bool) (spe we ss : Nat)
      (s : DriverState P S L O),
      run fab optimizer (.str sp) (.int n) obs pr spe we ss s =
        { run fab optimizer (.int n) (.str sp) obs pr spe we ss s with
          events := .deprecationWarning ::
            (run fab optimizer (.int n) (.str sp) obs pr spe we ss
              s).events }) ∧
    (∀ a b : PyVal, isLegacyShape a b = false →
      resolve_run_args a b = (a, b, false)) := by
  constructor
  · intro fab optimizer sp n obs pr spe we ss s
    rcases hc : (consume fab optimizer (iter n ss s)).err with _ | e <;>
      simp [run, resolve_run_args, hc]
  · intro a b h
    cases a <;> cases b <;> simp_all [resolve_run_args, isLegacyShape]

/-- Witness for C7: a swapped legacy call on the trivial driver, and a
non-legacy shape passing through unchanged. -/
theorem c7_reversed_run_args_witness :
    (run (liftFab trivialPure) trivialOpt (.str "log") (.int 1) none true 50
        50 1 trivialState =
      { run (liftFab trivialPure) trivialOpt (.int 1) (.str "log") none true
          50 50 1 trivialState with
        events := .deprecationWarning ::
          (run (liftFab trivialPure) trivialOpt (.int 1) (.str "log") none
            true 50 50 1 trivialState).events }) ∧
    (isLegacyShape (.int 5) (.int 7) = false ∧
      resolve_run_args (.int 5) (.int 7) = (.int 5, .int 7, false)) :=
  ⟨(@c7_reversed_run_args Unit Unit Unit Unit Unit).1 (liftFab trivialPure)
      trivialOpt "log" 1 none true 50 50 1 trivialState,
    by decide,
    (@c7_reversed_run_args Unit Unit Unit Unit Unit).2 (.int 5) (.int 7)
      (by decide)⟩

/-- Claim C10: `iter(n_steps, 0)` returns a generator without raising (the
generator body is lazy); the first attempt to consume it raises `ValueError`
from `range(0, n_steps, 0)` before any `_forward_and_backward` or
`update_parameters` call, leaving the driver state (step counter and
parameters) unchanged. -/
theorem c10_iter_zero_step {P S L O G : Type} (fab : FabFn P G S L)
    (optimizer : G → P → P) (n : Nat) (s : DriverState P S L O) :
    iter n 0 s = ⟨n, 0, s⟩ ∧
    consume fab optimizer (iter n 0 s) =
      ⟨[], [], s, some (.valueError "range arg 3 must not be zero")⟩ :=
  ⟨rfl, rfl⟩

end Netket
